import Mathlib

/-!
# APK Permission Inspector — verification of `permission.py`

A shallow embedding of the permission extraction / classification / diff
pipeline of `permission.py`, together with theorems checking the tool's
specification against the code.

Python strings are modelled as `String`; Python's lexicographic string
comparison (by code point) is modelled by comparing the underlying
`List Char` with Mathlib's lexicographic list order, which agrees with
code-point comparison on `Char`.
-/

namespace PermInspector

/-! ## String order and Python `sorted` / `set` / `strip` -/

/-- Python's `<=` on strings: lexicographic by code point. -/
def strLe (a b : String) : Prop := a.data ≤ b.data

/-- Python's `<` on strings: strict lexicographic by code point. -/
def strLt (a b : String) : Prop := a.data < b.data

instance : DecidableRel strLe := fun a b =>
  inferInstanceAs (Decidable (a.data ≤ b.data))

instance : DecidableRel strLt := fun a b =>
  inferInstanceAs (Decidable (a.data < b.data))

instance : IsTotal String strLe := ⟨fun a b => le_total a.data b.data⟩

instance : IsTrans String strLe := ⟨fun _ _ _ h₁ h₂ => le_trans h₁ h₂⟩

theorem string_data_inj {a b : String} (h : a.data = b.data) : a = b := by
  cases a; cases b; exact congrArg String.mk h

theorem strLt_of_strLe_of_ne {a b : String} (h₁ : strLe a b) (h₂ : a ≠ b) :
    strLt a b :=
  lt_of_le_of_ne h₁ (fun hd => h₂ (string_data_inj hd))

/-- Python's `str.strip()` (default whitespace stripping). -/
def pyStrip (s : String) : String :=
  ⟨((s.data.dropWhile Char.isWhitespace).reverse.dropWhile
      Char.isWhitespace).reverse⟩

/-- Python's `sorted(set(l))` for a list of strings: the lexicographically
sorted list of the distinct elements of `l`. -/
def sortedSet (l : List String) : List String :=
  List.insertionSort strLe l.dedup

theorem mem_sortedSet {s : String} {l : List String} :
    s ∈ sortedSet l ↔ s ∈ l := by
  unfold sortedSet
  rw [(List.perm_insertionSort strLe l.dedup).mem_iff, List.mem_dedup]

theorem sortedSet_nodup (l : List String) : (sortedSet l).Nodup :=
  ((List.perm_insertionSort strLe l.dedup).nodup_iff).mpr (List.nodup_dedup l)

theorem sortedSet_sorted_le (l : List String) :
    (sortedSet l).Sorted strLe :=
  List.sorted_insertionSort strLe l.dedup

theorem sortedSet_sorted_lt (l : List String) :
    (sortedSet l).Sorted strLt := by
  have h := (sortedSet_sorted_le l).and (sortedSet_nodup l)
  exact h.imp (fun hab => strLt_of_strLe_of_ne hab.1 hab.2)

/-! ## Manifest tree model

`parse_manifest` yields an `lxml` element; the extractor only uses
`findall(tag)` (direct children with the given unqualified tag) and
`el.get("{android-ns}name")` (the Android-namespaced `name` attribute).
An element is therefore modelled by its tag together with that one
attribute; the manifest root by its list of direct children. -/

structure Element where
  tag : String
  androidName : Option String
  deriving DecidableEq, Repr

structure ManifestTree where
  children : List Element
  deriving DecidableEq, Repr

/-- `root.findall(tag)`: direct children whose tag matches exactly. -/
def findall (t : ManifestTree) (tag : String) : List Element :=
  t.children.filter (fun el => el.tag == tag)

/-! ## `extract_permissions` (permission.py lines 85–97) -/

/-- `extract_permissions`: walk `uses-permission` / `uses-permission-sdk-23`
children, read the namespaced `name` attribute, keep it (stripped) when the
Python truthiness test `if name:` passes — i.e. when the attribute is
present and its raw value is not the empty string — then `sorted(set(...))`. -/
def extract_permissions (manifest_root : Option ManifestTree) : List String :=
  match manifest_root with
  | none => []
  | some t =>
    let perms := ["uses-permission", "uses-permission-sdk-23"].flatMap
      (fun tag => (findall t tag).filterMap (fun el =>
        match el.androidName with
        | some name => if name = "" then none else some (pyStrip name)
        | none => none))
    sortedSet perms

/-! ## Permission catalog and `classify_permission` (lines 36–53, 100–107) -/

/-- `PERMISSION_CATEGORIES`: the embedded reference table, as an association
list from permission name to (category, group). All keys are distinct, so
it models the Python dict faithfully. -/
def PERMISSION_CATEGORIES : List (String × String × String) :=
  [("android.permission.INTERNET", ("normal", "NETWORK")),
   ("android.permission.ACCESS_NETWORK_STATE", ("normal", "NETWORK")),
   ("android.permission.ACCESS_FINE_LOCATION", ("dangerous", "LOCATION")),
   ("android.permission.ACCESS_COARSE_LOCATION", ("dangerous", "LOCATION")),
   ("android.permission.READ_CONTACTS", ("dangerous", "CONTACTS")),
   ("android.permission.WRITE_CONTACTS", ("dangerous", "CONTACTS")),
   ("android.permission.RECORD_AUDIO", ("dangerous", "MICROPHONE")),
   ("android.permission.CAMERA", ("dangerous", "CAMERA")),
   ("android.permission.READ_SMS", ("dangerous", "SMS")),
   ("android.permission.SEND_SMS", ("dangerous", "SMS")),
   ("android.permission.RECEIVE_SMS", ("dangerous", "SMS")),
   ("android.permission.READ_EXTERNAL_STORAGE", ("dangerous", "STORAGE")),
   ("android.permission.WRITE_EXTERNAL_STORAGE", ("dangerous", "STORAGE")),
   ("android.permission.POST_NOTIFICATIONS", ("dangerous", "NOTIFICATIONS")),
   ("android.permission.INSTALL_PACKAGES", ("signature", "SYSTEM")),
   ("android.permission.READ_LOGS", ("signature", "SYSTEM"))]

/-- Dict lookup `PERMISSION_CATEGORIES[name]` guarded by
`name in PERMISSION_CATEGORIES`. -/
def catalogLookup (name : String) : Option (String × String) :=
  (PERMISSION_CATEGORIES.find? (fun e => e.1 == name)).map (·.2)

/-- The record returned by `classify_permission`:
`{"name", "category", "group", "sensitive"}`. -/
structure PermissionRecord where
  name : String
  category : String
  group : Option String
  sensitive : Bool
  deriving DecidableEq, Repr

/-- `classify_permission` (lines 100–107). -/
def classify_permission (name : String) : PermissionRecord :=
  let cg : String × Option String :=
    match catalogLookup name with
    | some (cat, group) => (cat, some group)
    | none => ("unknown", none)
  let sensitive : Bool := cg.1 == "dangerous" || cg.1 == "signature"
  { name := name, category := cg.1, group := cg.2, sensitive := sensitive }

/-! ## `diff_permissions` (lines 135–142)

The Python function builds two dicts keyed by `name` and works with their
key views. A dict built from a record list has its keys in first-insertion
order and, for each key, the value of the last record bearing it. -/

/-- Keys of `{p["name"]: p for p in l}` in dict (first-insertion) order. -/
def dictKeys (l : List PermissionRecord) : List String :=
  match l with
  | [] => []
  | p :: rest => p.name :: (dictKeys rest).filter (fun k => k ≠ p.name)

/-- Value lookup in `{p["name"]: p for p in l}`: the last record with the
given name wins, as in a Python dict comprehension. -/
def dictGet (l : List PermissionRecord) (k : String) : Option PermissionRecord :=
  match l with
  | [] => none
  | p :: rest =>
    match dictGet rest k with
    | some r => some r
    | none => if p.name = k then some p else none

structure DiffResult where
  added : List String
  removed : List String
  newDangerous : List String
  deriving DecidableEq, Repr

/-- `diff_permissions` (lines 135–142). -/
def diff_permissions (old new : List PermissionRecord) : DiffResult :=
  let old_names := dictKeys old
  let new_names := dictKeys new
  let added := new_names.filter (fun n => !old_names.contains n)
  let removed := old_names.filter (fun n => !new_names.contains n)
  let new_dangerous := added.filter (fun n =>
    match dictGet new n with
    | some r => r.category == "dangerous"
    | none => false)
  { added := added, removed := removed, newDangerous := new_dangerous }

/-! ## World model for the effectful parts

File system, zip extraction, the optional `apkutils2` AXML decoder,
`etree.fromstring`, and JSON writing are external collaborators; a `World`
records, for each possible call, whether it succeeds and with what result
(`none` standing for a raised exception). -/

abbrev FilePath' := String
abbrev Bytes := String

structure World where
  /-- `Path.exists()`. -/
  fsExists : FilePath' → Bool
  /-- `zipfile.ZipFile(p).read("AndroidManifest.xml")`; `none` = exception. -/
  zipManifest : FilePath' → Option Bytes
  /-- `Path(p).read_bytes()`; `none` = uncaught exception (e.g. missing file). -/
  readBytes : FilePath' → Option Bytes
  /-- `apkutils2` availability, and `APK.load_manifest_xml` as a possibly
  failing decode from bytes to XML text. -/
  axmlDecoder : Option (Bytes → Option Bytes)
  /-- `etree.fromstring` on bytes; `none` = parse exception. -/
  xmlParse : Bytes → Option ManifestTree
  /-- Whether `open(p, "w")` + `json.dump` succeeds. -/
  jsonWriteOk : FilePath' → Bool

/-- Console messages, one constructor per `console.print` site. -/
inductive Msg where
  | apkNotFound (p : FilePath')
  | extractionError
  | parseError
  | usageError
  | table (title : String)
  | cmpHeader
  | addedLine (names : List String)
  | removedLine (names : List String)
  | newDangerousLine (names : List String)
  | newDangerousAlert
  | jsonSaved (p : FilePath')
  | jsonWriteError (p : FilePath')
  deriving DecidableEq, Repr

/-- `load_manifest_from_apk` (lines 58–69): result and printed messages. -/
def load_manifest_from_apk (w : World) (apk_path : FilePath') :
    Option Bytes × List Msg :=
  if w.fsExists apk_path then
    match w.zipManifest apk_path with
    | some data => (some data, [])
    | none => (none, [Msg.extractionError])
  else
    (none, [Msg.apkNotFound apk_path])

/-- `parse_manifest` (lines 72–82): result and printed messages. The
argument is `Option Bytes` because `analyze` can pass the `None` left by a
failed APK load, on which both decoding and `etree.fromstring` raise.
When `apkutils2` is importable the function only tries
`etree.fromstring(apkutils2.APK.load_manifest_xml(data))`; any exception is
caught and turned into `None` — there is no fallback attempt. -/
def parse_manifest (w : World) (data : Option Bytes) :
    Option ManifestTree × List Msg :=
  match w.axmlDecoder with
  | some dec =>
    match data with
    | none => (none, [Msg.parseError])
    | some b =>
      match dec b with
      | none => (none, [Msg.parseError])
      | some decoded =>
        match w.xmlParse decoded with
        | some t => (some t, [])
        | none => (none, [Msg.parseError])
  | none =>
    match data with
    | none => (none, [Msg.parseError])
    | some b =>
      match w.xmlParse b with
      | some t => (some t, [])
      | none => (none, [Msg.parseError])

/-- The `report` dict assembled by `analyze` (lines 193–196, 208). -/
structure Report where
  permissions : List PermissionRecord
  diff : Option DiffResult
  deriving DecidableEq, Repr

/-- `export_json` (lines 145–152): performed writes and printed messages. -/
def export_json (w : World) (report : Report) (path : FilePath') :
    List (FilePath' × Report) × List Msg :=
  if w.jsonWriteOk path then
    ([(path, report)], [Msg.jsonSaved path])
  else
    ([], [Msg.jsonWriteError path])

/-! ## The `analyze` command (lines 158–230) -/

structure Args where
  apk : Option FilePath'
  manifest : Option FilePath'
  compare_apk : Option FilePath'
  compare_manifest : Option FilePath'
  output : Option FilePath'
  only : Option (List String)
  fail_on_new_dangerous : Bool
  no_color : Bool
  deriving DecidableEq, Repr

/-- How an invocation ends: `typer.Exit(code)` or an uncaught exception
escaping the command body. -/
inductive Outcome where
  | exit (code : Nat)
  | uncaught
  deriving DecidableEq, Repr

/-- Observable result of one `analyze` run: how it ended, the console
messages in order, the JSON writes performed in order, and the `report`
value in force when the run ended (`none` if the run ended before the
report dict was built). -/
structure RunResult where
  outcome : Outcome
  msgs : List Msg
  writes : List (FilePath' × Report)
  report : Option Report
  deriving DecidableEq, Repr

/-- The `only` filter (lines 188–189): Python's `if only:` is false both
for `None` and for an empty list. -/
def applyOnly (only : Option (List String)) (perms : List PermissionRecord) :
    List PermissionRecord :=
  match only with
  | none => perms
  | some [] => perms
  | some cats => perms.filter (fun p => cats.contains p.category)

/-- Comparison display (lines 211–218). -/
def diffMsgs (d : DiffResult) : List Msg :=
  if !d.added.isEmpty || !d.removed.isEmpty then
    [Msg.cmpHeader]
      ++ (if !d.added.isEmpty then [Msg.addedLine d.added] else [])
      ++ (if !d.removed.isEmpty then [Msg.removedLine d.removed] else [])
      ++ (if !d.newDangerous.isEmpty then [Msg.newDangerousLine d.newDangerous]
          else [])
  else []

/-- Loading of the comparison input (lines 200–204). `none` models the
uncaught exception from `Path(compare_manifest).read_bytes()`; otherwise
the bytes (possibly `None`) and the messages printed while loading. -/
def loadCompare (w : World) (a : Args) : Option (Option Bytes × List Msg) :=
  match a.compare_apk with
  | some p => some (load_manifest_from_apk w p)
  | none =>
    match a.compare_manifest with
    | some p =>
      match w.readBytes p with
      | some b => some (some b, [])
      | none => none
    | none => some (none, [])

/-- Final `export_json` + `typer.Exit(code=0)` (lines 227–230). -/
def finishRun (w : World) (a : Args) (report : Report) (msgs : List Msg) :
    RunResult :=
  match a.output with
  | some p =>
    let (ws, msE) := export_json w report p
    { outcome := Outcome.exit 0, msgs := msgs ++ msE, writes := ws,
      report := some report }
  | none =>
    { outcome := Outcome.exit 0, msgs := msgs, writes := [],
      report := some report }

/-- The policy check (lines 220–224) followed, when the policy does not
fire, by the final export and exit (lines 227–230). On a policy hit the
JSON artifact is exported (if configured) before `typer.Exit(code=3)`. -/
def policyAndFinish (w : World) (a : Args) (perms1 : List PermissionRecord)
    (d : DiffResult) (msgs2 : List Msg) : RunResult :=
  let report : Report := { permissions := perms1, diff := some d }
  if a.fail_on_new_dangerous && !d.newDangerous.isEmpty then
    match a.output with
    | some p =>
      let (ws, msE) := export_json w report p
      { outcome := Outcome.exit 3,
        msgs := msgs2 ++ [Msg.newDangerousAlert] ++ msE,
        writes := ws, report := some report }
    | none =>
      { outcome := Outcome.exit 3,
        msgs := msgs2 ++ [Msg.newDangerousAlert],
        writes := [], report := some report }
  else
    finishRun w a report msgs2

/-- The comparison stage (lines 199–224): load the second input, parse it,
extract+classify, diff, display, then the policy check. -/
def compareStage (w : World) (a : Args) (perms1 : List PermissionRecord)
    (msgs1 : List Msg) : RunResult :=
  match loadCompare w a with
  | none =>
    { outcome := Outcome.uncaught, msgs := msgs1, writes := [],
      report := none }
  | some (data2, ms2) =>
    let (m2, msP2) := parse_manifest w data2
    let perms2 := (extract_permissions m2).map classify_permission
    let d := diff_permissions perms1 perms2
    policyAndFinish w a perms1 d (msgs1 ++ ms2 ++ msP2 ++ diffMsgs d)

/-- Body of `analyze` from `parse_manifest(data1)` on (lines 183–230). -/
def analyzeWithData (w : World) (a : Args) (data1 : Option Bytes)
    (msgs0 : List Msg) : RunResult :=
  let (m1, msP) := parse_manifest w data1
  match m1 with
  | none =>
    { outcome := Outcome.exit 1, msgs := msgs0 ++ msP, writes := [],
      report := none }
  | some t1 =>
    let perms1 := applyOnly a.only
      ((extract_permissions (some t1)).map classify_permission)
    let msgs1 := msgs0 ++ msP ++ [Msg.table "Permissions (Base)"]
    match a.compare_apk, a.compare_manifest with
    | none, none =>
      finishRun w a { permissions := perms1, diff := none } msgs1
    | _, _ =>
      compareStage w a perms1 msgs1

/-- The whole `analyze` command (lines 158–230): base input selection
(`if apk: ... elif manifest: ... else usage error`), then the shared body. -/
def analyze (w : World) (a : Args) : RunResult :=
  match a.apk, a.manifest with
  | some p, _ =>
    let (data1, ms1) := load_manifest_from_apk w p
    analyzeWithData w a data1 ms1
  | none, some p =>
    match w.readBytes p with
    | some b => analyzeWithData w a (some b) []
    | none =>
      { outcome := Outcome.uncaught, msgs := [], writes := [], report := none }
  | none, none =>
    { outcome := Outcome.exit 1, msgs := [Msg.usageError], writes := [],
      report := none }

/-! ## Basic lemmas about the embedded functions -/

instance : IsIrrefl String strLt := ⟨fun a => lt_irrefl a.data⟩

theorem extract_permissions_none : extract_permissions none = [] := rfl

theorem classify_permission_name (n : String) :
    (classify_permission n).name = n := by
  unfold classify_permission
  rcases h : catalogLookup n with _ | ⟨c, g⟩ <;> simp [h]

theorem map_classify_name (l : List String) :
    (l.map classify_permission).map PermissionRecord.name = l := by
  rw [List.map_map]
  have h : PermissionRecord.name ∘ classify_permission = id := by
    funext n; exact classify_permission_name n
  rw [h, List.map_id]

theorem mem_map_classify_eq {l : List String} {r : PermissionRecord}
    {n : String} (h : r ∈ l.map classify_permission) (hn : r.name = n) :
    r = classify_permission n := by
  rcases List.mem_map.mp h with ⟨m, _, hm⟩
  have hmn : m = n := by rw [← hn, ← hm, classify_permission_name]
  rw [← hm, hmn]

theorem mem_dictKeys : ∀ {l : List PermissionRecord} {k : String},
    k ∈ dictKeys l ↔ ∃ r ∈ l, r.name = k
  | [], k => by simp [dictKeys]
  | p :: rest, k => by
    by_cases hk : k = p.name <;>
      simp [dictKeys, List.mem_filter, hk, mem_dictKeys (l := rest)]
    intro h
    exact absurd h.symm hk

theorem dictKeys_nodup : ∀ (l : List PermissionRecord), (dictKeys l).Nodup
  | [] => List.nodup_nil
  | p :: rest => by
    simp only [dictKeys, List.nodup_cons]
    refine ⟨fun hmem => ?_, (dictKeys_nodup rest).filter _⟩
    have h := (List.mem_filter.mp hmem).2
    simp at h

theorem dictKeys_eq_of_nodup_names : ∀ {l : List PermissionRecord},
    (l.map PermissionRecord.name).Nodup →
    dictKeys l = l.map PermissionRecord.name
  | [], _ => rfl
  | p :: rest, h => by
    simp only [List.map_cons, List.nodup_cons] at h
    simp only [dictKeys, List.map_cons,
      dictKeys_eq_of_nodup_names (l := rest) h.2]
    congr 1
    rw [List.filter_eq_self]
    intro k hk
    simp only [decide_eq_true_eq]
    intro hkp
    exact h.1 (hkp ▸ hk)

theorem dictGet_mem_of_eq_some : ∀ {l : List PermissionRecord} {k : String}
    {r : PermissionRecord}, dictGet l k = some r → r ∈ l ∧ r.name = k
  | [], _, _, h => by simp [dictGet] at h
  | p :: rest, k, r, h => by
    simp only [dictGet] at h
    cases hget : dictGet rest k with
    | some r' =>
      rw [hget] at h
      obtain rfl : r' = r := by simpa using h
      have := dictGet_mem_of_eq_some (l := rest) hget
      exact ⟨List.mem_cons_of_mem _ this.1, this.2⟩
    | none =>
      rw [hget] at h
      by_cases hp : p.name = k
      · simp only [hp, if_pos rfl] at h
        obtain rfl : p = r := by simpa using h
        exact ⟨List.mem_cons_self .., hp⟩
      · simp [hp] at h

theorem dictGet_eq_some_of_mem : ∀ {l : List PermissionRecord} {k : String},
    (∃ r ∈ l, r.name = k) → ∃ r, dictGet l k = some r ∧ r ∈ l ∧ r.name = k
  | [], k, h => by simp at h
  | p :: rest, k, h => by
    by_cases hrest : ∃ r ∈ rest, r.name = k
    · rcases dictGet_eq_some_of_mem (l := rest) hrest with ⟨r, hget, hmem, hname⟩
      exact ⟨r, by simp [dictGet, hget], List.mem_cons_of_mem _ hmem, hname⟩
    · have hp : p.name = k := by
        rcases h with ⟨r, hr, hname⟩
        rcases List.mem_cons.mp hr with rfl | hr'
        · exact hname
        · exact absurd ⟨r, hr', hname⟩ hrest
      have hnone : dictGet rest k = none := by
        cases hget : dictGet rest k with
        | none => rfl
        | some r =>
          rcases dictGet_mem_of_eq_some hget with ⟨hmem, hname⟩
          exact absurd ⟨r, hmem, hname⟩ hrest
      exact ⟨p, by simp [dictGet, hnone, hp], List.mem_cons_self .., hp⟩

/-! ## C4 — `classify_permission` is a total pure catalog lookup -/

/-- C4: `classify_permission` is a total pure function: for every name the
returned record's category and group come from the catalog entry when the
name is present (exact match), and are `"unknown"` / `none` when absent;
`sensitive` is true iff the category is `"dangerous"` or `"signature"`. -/
theorem C4_classify_permission_total (name : String) :
    (classify_permission name).name = name ∧
    ((classify_permission name).category,
     (classify_permission name).group) =
      (match catalogLookup name with
       | some (cat, group) => (cat, some group)
       | none => ("unknown", none)) ∧
    ((classify_permission name).sensitive = true ↔
      ((classify_permission name).category = "dangerous" ∨
       (classify_permission name).category = "signature")) := by
  unfold classify_permission
  rcases h : catalogLookup name with _ | ⟨c, g⟩ <;> simp [h]

/-! ## C1 — `parse_manifest` has no plain-XML fallback when the decoder
is present but fails -/

/-- `parse_manifest` as claim C1 states it: try the external AXML decoder
when present; if the decoder attempt fails, fall back to parsing the same
bytes as plain XML; fail only when both attempts fail. -/
def parse_manifest_claimed (w : World) (data : Option Bytes) :
    Option ManifestTree :=
  match data with
  | none => none
  | some b =>
    match w.axmlDecoder with
    | some dec =>
      match (dec b).bind w.xmlParse with
      | some t => some t
      | none => w.xmlParse b
    | none => w.xmlParse b

/-- A world whose AXML decoder is present but always fails, and whose plain
XML parser always succeeds. -/
def C1world : World :=
  { fsExists := fun _ => false
    zipManifest := fun _ => none
    readBytes := fun _ => none
    axmlDecoder := some (fun _ => none)
    xmlParse := fun _ => some { children := [] }
    jsonWriteOk := fun _ => true }

/-- C1 counterexample: with the decoder present but failing on the bytes
`"manifest"`, plain-XML parsing of those bytes would succeed, yet
`parse_manifest` returns `none` — it never attempts the fallback, contrary
to the claim. -/
theorem C1_counterexample :
    C1world.axmlDecoder = some (fun _ => none) ∧
    C1world.xmlParse "manifest" = some { children := [] } ∧
    (parse_manifest C1world (some "manifest")).1 = none ∧
    parse_manifest_claimed C1world (some "manifest") =
      some { children := [] } ∧
    (parse_manifest C1world (some "manifest")).1 ≠
      parse_manifest_claimed C1world (some "manifest") :=
  ⟨rfl, rfl, rfl, rfl, by decide⟩

/-- C1 (amended): the fallback to plain XML happens only when the decoder
capability is absent. When the decoder is present, `parse_manifest` returns
the decode-then-parse result and fails outright when that attempt fails,
without trying the bytes as plain XML. -/
theorem C1_parse_manifest_no_fallback (w : World) (b : Bytes) :
    (w.axmlDecoder = none →
      (parse_manifest w (some b)).1 = w.xmlParse b) ∧
    (∀ dec, w.axmlDecoder = some dec →
      (parse_manifest w (some b)).1 = (dec b).bind w.xmlParse) := by
  constructor
  · intro h
    unfold parse_manifest
    rw [h]
    rcases hx : w.xmlParse b with _ | t <;> simp [hx]
  · intro dec h
    unfold parse_manifest
    rw [h]
    rcases hd : dec b with _ | decoded <;> simp [hd]
    rcases hx : w.xmlParse decoded with _ | t <;> simp [hx]

/-- A world with no AXML decoder capability. -/
def C1worldNoDec : World :=
  { fsExists := fun _ => false
    zipManifest := fun _ => none
    readBytes := fun _ => none
    axmlDecoder := none
    xmlParse := fun _ => some { children := [] }
    jsonWriteOk := fun _ => true }

theorem C1_parse_manifest_no_fallback_witness :
    (parse_manifest C1worldNoDec (some "m")).1 = C1worldNoDec.xmlParse "m" ∧
    (parse_manifest C1world (some "m")).1 =
      ((fun _ => none : Bytes → Option Bytes) "m").bind C1world.xmlParse :=
  ⟨(C1_parse_manifest_no_fallback C1worldNoDec "m").1 rfl,
   (C1_parse_manifest_no_fallback C1world "m").2 _ rfl⟩

/-! ## C3 — `extract_permissions` -/

/-- The extractor as claim C3 words it: the sorted deduplication of the
trimmed values of the namespaced `name` attribute on the two element kinds,
skipping only elements on which the attribute is missing. -/
def extract_claimed (manifest_root : Option ManifestTree) : List String :=
  match manifest_root with
  | none => []
  | some t =>
    sortedSet (["uses-permission", "uses-permission-sdk-23"].flatMap
      (fun tag => (findall t tag).filterMap
        (fun el => el.androidName.map pyStrip)))

/-- C3 counterexample: a `uses-permission` element carrying the namespaced
`name` attribute with value `""`. The attribute is present, so the claim's
set of trimmed names is `{""}`, but the code's `if name:` truthiness test
also rejects the empty string, so `extract_permissions` returns `[]`. -/
theorem C3_counterexample :
    extract_permissions
        (some { children := [{ tag := "uses-permission",
                               androidName := some "" }] }) = [] ∧
    extract_claimed
        (some { children := [{ tag := "uses-permission",
                               androidName := some "" }] }) = [""] ∧
    extract_permissions
        (some { children := [{ tag := "uses-permission",
                               androidName := some "" }] }) ≠
      extract_claimed
        (some { children := [{ tag := "uses-permission",
                               androidName := some "" }] }) := by
  refine ⟨rfl, rfl, by decide⟩

theorem extract_entry_eq_some {el : Element} {s : String} :
    (match el.androidName with
     | some name => if name = "" then none else some (pyStrip name)
     | none => none) = some s ↔
    ∃ v, el.androidName = some v ∧ v ≠ "" ∧ pyStrip v = s := by
  cases h : el.androidName with
  | none => simp
  | some v => by_cases hv : v = "" <;> simp [hv]

/-- C3 (amended): `extract_permissions` returns the lexicographically
sorted, deduplicated, trimmed `name` attribute values of `uses-permission`
and `uses-permission-sdk-23` children — skipping elements whose attribute
is missing **or whose raw value is the empty string** (Python's `if name:`),
while a whitespace-only value is kept and trims to `""`. A null tree yields
`[]`. -/
theorem C3_extract_characterization (root : Option ManifestTree) :
    extract_permissions none = [] ∧
    (extract_permissions root).Sorted strLt ∧
    (∀ s, s ∈ extract_permissions root ↔
      ∃ t, root = some t ∧ ∃ el ∈ t.children,
        (el.tag = "uses-permission" ∨ el.tag = "uses-permission-sdk-23") ∧
        ∃ v, el.androidName = some v ∧ v ≠ "" ∧ pyStrip v = s) := by
  refine ⟨rfl, ?_, ?_⟩
  · cases root with
    | none => exact List.sorted_nil
    | some t => exact sortedSet_sorted_lt _
  · intro s
    cases root with
    | none => simp [extract_permissions]
    | some t =>
      simp only [extract_permissions, mem_sortedSet, List.mem_flatMap,
        List.mem_filterMap, findall, List.mem_filter, extract_entry_eq_some,
        List.mem_cons, List.not_mem_nil, or_false, beq_iff_eq,
        Option.some.injEq, exists_eq_left']
      constructor
      · rintro ⟨tag, htag, el, ⟨hel, htageq⟩, v, hv⟩
        refine ⟨el, hel, ?_, v, hv⟩
        rcases htag with rfl | rfl
        · exact Or.inl htageq
        · exact Or.inr htageq
      · rintro ⟨el, hel, htag | htag, v, hv⟩
        · exact ⟨"uses-permission", Or.inl rfl, el, ⟨hel, htag⟩, v, hv⟩
        · exact ⟨"uses-permission-sdk-23", Or.inr rfl, el, ⟨hel, htag⟩, v, hv⟩

/-! ## C5 — `diff_permissions` algebra -/

/-- C5: for inputs whose name sequences are strictly sorted (as the
extractor produces), `added` and `removed` are disjoint, every member of
`newDangerous` lies in `added` and its record in the new set has category
`"dangerous"`, and all three result lists are lexicographically sorted.
The function is total by construction. -/
theorem C5_diff_permissions_props (old new : List PermissionRecord)
    (hold : (old.map PermissionRecord.name).Sorted strLt)
    (hnew : (new.map PermissionRecord.name).Sorted strLt) :
    (∀ n, ¬(n ∈ (diff_permissions old new).added ∧
            n ∈ (diff_permissions old new).removed)) ∧
    (∀ n ∈ (diff_permissions old new).newDangerous,
        n ∈ (diff_permissions old new).added ∧
        ∃ r, dictGet new n = some r ∧ r.category = "dangerous") ∧
    (diff_permissions old new).added.Sorted strLt ∧
    (diff_permissions old new).removed.Sorted strLt ∧
    (diff_permissions old new).newDangerous.Sorted strLt := by
  have hko : dictKeys old = old.map PermissionRecord.name :=
    dictKeys_eq_of_nodup_names hold.nodup
  have hkn : dictKeys new = new.map PermissionRecord.name :=
    dictKeys_eq_of_nodup_names hnew.nodup
  refine ⟨?_, ?_, ?_, ?_, ?_⟩
  · rintro n ⟨ha, hr⟩
    simp only [diff_permissions] at ha hr
    rw [List.mem_filter] at ha hr
    have h1 : n ∉ dictKeys old := by simpa using ha.2
    exact h1 hr.1
  · intro n hn
    simp only [diff_permissions, List.mem_filter] at hn ⊢
    refine ⟨hn.1, ?_⟩
    have hp := hn.2
    cases hget : dictGet new n with
    | none => rw [hget] at hp; simp at hp
    | some r =>
      rw [hget] at hp
      exact ⟨r, rfl, by simpa using hp⟩
  · exact (hkn ▸ hnew).filter _
  · exact (hko ▸ hold).filter _
  · exact ((hkn ▸ hnew).filter _).filter _

/-- Concrete classified sets for the C5 witness. -/
def C5old : List PermissionRecord :=
  ["android.permission.INTERNET"].map classify_permission

def C5new : List PermissionRecord :=
  ["android.permission.CAMERA",
   "android.permission.INTERNET"].map classify_permission

theorem C5_diff_permissions_props_witness :
    (C5old.map PermissionRecord.name).Sorted strLt ∧
    (C5new.map PermissionRecord.name).Sorted strLt ∧
    ((∀ n, ¬(n ∈ (diff_permissions C5old C5new).added ∧
             n ∈ (diff_permissions C5old C5new).removed)) ∧
     (∀ n ∈ (diff_permissions C5old C5new).newDangerous,
         n ∈ (diff_permissions C5old C5new).added ∧
         ∃ r, dictGet C5new n = some r ∧ r.category = "dangerous") ∧
     (diff_permissions C5old C5new).added.Sorted strLt ∧
     (diff_permissions C5old C5new).removed.Sorted strLt ∧
     (diff_permissions C5old C5new).newDangerous.Sorted strLt) :=
  ⟨by decide, by decide,
   C5_diff_permissions_props C5old C5new (by decide) (by decide)⟩

/-! ## Structural lemmas about the orchestrator stages -/

theorem finishRun_outcome (w : World) (a : Args) (rep : Report)
    (m : List Msg) : (finishRun w a rep m).outcome = Outcome.exit 0 := by
  unfold finishRun
  cases a.output with
  | none => rfl
  | some p => unfold export_json; by_cases h : w.jsonWriteOk p <;> simp [h]

theorem finishRun_report (w : World) (a : Args) (rep : Report)
    (m : List Msg) : (finishRun w a rep m).report = some rep := by
  unfold finishRun
  cases a.output with
  | none => rfl
  | some p => unfold export_json; by_cases h : w.jsonWriteOk p <;> simp [h]

theorem finishRun_writes {w : World} {a : Args} {p : FilePath'}
    (rep : Report) (m : List Msg) (ho : a.output = some p)
    (hok : w.jsonWriteOk p = true) :
    (finishRun w a rep m).writes = [(p, rep)] := by
  unfold finishRun
  rw [ho]
  unfold export_json
  simp [hok]

theorem finishRun_writefail_msg {w : World} {a : Args} {p : FilePath'}
    (rep : Report) (m : List Msg) (ho : a.output = some p)
    (hfail : w.jsonWriteOk p = false) :
    Msg.jsonWriteError p ∈ (finishRun w a rep m).msgs := by
  unfold finishRun
  rw [ho]
  unfold export_json
  simp [hfail]

theorem policyAndFinish_report (w : World) (a : Args)
    (perms1 : List PermissionRecord) (d : DiffResult) (m : List Msg) :
    (policyAndFinish w a perms1 d m).report =
      some { permissions := perms1, diff := some d } := by
  unfold policyAndFinish
  by_cases h : (a.fail_on_new_dangerous && !d.newDangerous.isEmpty) = true
  · rw [if_pos h]
    cases ho : a.output with
    | none => rfl
    | some p => unfold export_json; by_cases hk : w.jsonWriteOk p <;> simp [hk]
  · rw [if_neg h]
    exact finishRun_report ..

theorem policyAndFinish_outcome_hit {w : World} {a : Args}
    {perms1 : List PermissionRecord} {d : DiffResult} {m : List Msg}
    (hf : a.fail_on_new_dangerous = true) (hne : d.newDangerous ≠ []) :
    (policyAndFinish w a perms1 d m).outcome = Outcome.exit 3 := by
  unfold policyAndFinish
  rw [if_pos (by simp [hf, hne])]
  cases ho : a.output with
  | none => rfl
  | some p => unfold export_json; by_cases hk : w.jsonWriteOk p <;> simp [hk]

theorem policyAndFinish_outcome_miss {w : World} {a : Args}
    {perms1 : List PermissionRecord} {d : DiffResult} {m : List Msg}
    (h : a.fail_on_new_dangerous = false ∨ d.newDangerous = []) :
    (policyAndFinish w a perms1 d m).outcome = Outcome.exit 0 := by
  unfold policyAndFinish
  rw [if_neg (by rcases h with h | h <;> simp [h])]
  exact finishRun_outcome ..

theorem policyAndFinish_writes {w : World} {a : Args} {p : FilePath'}
    {perms1 : List PermissionRecord} {d : DiffResult} {m : List Msg}
    (ho : a.output = some p) (hok : w.jsonWriteOk p = true) :
    (policyAndFinish w a perms1 d m).writes =
      [(p, { permissions := perms1, diff := some d })] := by
  unfold policyAndFinish
  by_cases h : (a.fail_on_new_dangerous && !d.newDangerous.isEmpty) = true
  · rw [if_pos h, ho]
    unfold export_json
    simp [hok]
  · rw [if_neg h]
    exact finishRun_writes _ _ ho hok

theorem policyAndFinish_writefail_msg {w : World} {a : Args} {p : FilePath'}
    {perms1 : List PermissionRecord} {d : DiffResult} {m : List Msg}
    (ho : a.output = some p) (hfail : w.jsonWriteOk p = false) :
    Msg.jsonWriteError p ∈ (policyAndFinish w a perms1 d m).msgs := by
  unfold policyAndFinish
  by_cases h : (a.fail_on_new_dangerous && !d.newDangerous.isEmpty) = true
  · rw [if_pos h, ho]
    unfold export_json
    simp [hfail]
  · rw [if_neg h]
    exact finishRun_writefail_msg _ _ ho hfail

theorem analyzeWithData_parse_fail {w : World} {a : Args}
    {data1 : Option Bytes} {ms : List Msg}
    (h : (parse_manifest w data1).1 = none) :
    analyzeWithData w a data1 ms =
      { outcome := Outcome.exit 1,
        msgs := ms ++ (parse_manifest w data1).2, writes := [],
        report := none } := by
  unfold analyzeWithData
  rcases hp : parse_manifest w data1 with ⟨m1, msP⟩
  rw [hp] at h
  simp only at h
  subst h
  simp

theorem analyzeWithData_parse_ok {w : World} {a : Args}
    {data1 : Option Bytes} {ms : List Msg} {t1 : ManifestTree}
    (h : (parse_manifest w data1).1 = some t1) :
    analyzeWithData w a data1 ms =
      (match a.compare_apk, a.compare_manifest with
       | none, none =>
         finishRun w a
           { permissions := applyOnly a.only
               ((extract_permissions (some t1)).map classify_permission),
             diff := none }
           (ms ++ (parse_manifest w data1).2 ++
             [Msg.table "Permissions (Base)"])
       | _, _ =>
         compareStage w a
           (applyOnly a.only
             ((extract_permissions (some t1)).map classify_permission))
           (ms ++ (parse_manifest w data1).2 ++
             [Msg.table "Permissions (Base)"])) := by
  unfold analyzeWithData
  rcases hp : parse_manifest w data1 with ⟨m1, msP⟩
  rw [hp] at h
  simp only at h
  subst h
  simp

theorem compareStage_uncaught {w : World} {a : Args}
    {perms1 : List PermissionRecord} {msgs1 : List Msg}
    (hlc : loadCompare w a = none) :
    compareStage w a perms1 msgs1 =
      { outcome := Outcome.uncaught, msgs := msgs1, writes := [],
        report := none } := by
  unfold compareStage
  rw [hlc]

theorem compareStage_loaded {w : World} {a : Args}
    {perms1 : List PermissionRecord} {msgs1 : List Msg}
    {data2 : Option Bytes} {ms2 : List Msg}
    (hlc : loadCompare w a = some (data2, ms2)) :
    compareStage w a perms1 msgs1 =
      policyAndFinish w a perms1
        (diff_permissions perms1
          ((extract_permissions (parse_manifest w data2).1).map
            classify_permission))
        (msgs1 ++ ms2 ++ (parse_manifest w data2).2 ++
          diffMsgs (diff_permissions perms1
            ((extract_permissions (parse_manifest w data2).1).map
              classify_permission))) := by
  unfold compareStage
  rw [hlc]

theorem analyze_apk {w : World} {a : Args} {p : FilePath'}
    (h : a.apk = some p) :
    analyze w a = analyzeWithData w a (load_manifest_from_apk w p).1
      (load_manifest_from_apk w p).2 := by
  unfold analyze
  rw [h]

theorem analyze_manifest {w : World} {a : Args} {p : FilePath'} {b : Bytes}
    (hap : a.apk = none) (hm : a.manifest = some p)
    (hr : w.readBytes p = some b) :
    analyze w a = analyzeWithData w a (some b) [] := by
  unfold analyze
  simp only [hap, hm, hr]

theorem analyze_manifest_uncaught {w : World} {a : Args} {p : FilePath'}
    (hap : a.apk = none) (hm : a.manifest = some p)
    (hr : w.readBytes p = none) :
    analyze w a =
      { outcome := Outcome.uncaught, msgs := [], writes := [],
        report := none } := by
  unfold analyze
  simp only [hap, hm, hr]

theorem analyze_usage {w : World} {a : Args}
    (hap : a.apk = none) (hm : a.manifest = none) :
    analyze w a =
      { outcome := Outcome.exit 1, msgs := [Msg.usageError], writes := [],
        report := none } := by
  unfold analyze
  rw [hap, hm]

theorem compareStage_cases (w : World) (a : Args)
    (perms1 : List PermissionRecord) (msgs1 : List Msg) :
    (compareStage w a perms1 msgs1).report = none ∨
    ∃ d msgs2, compareStage w a perms1 msgs1 =
      policyAndFinish w a perms1 d msgs2 := by
  cases hlc : loadCompare w a with
  | none => left; rw [compareStage_uncaught hlc]
  | some pr =>
    rcases pr with ⟨data2, ms2⟩
    exact Or.inr ⟨_, _, compareStage_loaded hlc⟩

theorem analyzeWithData_cases (w : World) (a : Args) (data1 : Option Bytes)
    (ms : List Msg) :
    (analyzeWithData w a data1 ms).report = none ∨
    (∃ perms1 msgs1, analyzeWithData w a data1 ms =
      finishRun w a { permissions := perms1, diff := none } msgs1) ∨
    (∃ perms1 d msgs2, analyzeWithData w a data1 ms =
      policyAndFinish w a perms1 d msgs2) := by
  cases hp : (parse_manifest w data1).1 with
  | none => left; rw [analyzeWithData_parse_fail hp]
  | some t1 =>
    rw [analyzeWithData_parse_ok hp]
    cases hca : a.compare_apk with
    | some q =>
      rcases compareStage_cases w a
        (applyOnly a.only
          ((extract_permissions (some t1)).map classify_permission))
        ((ms ++ (parse_manifest w data1).2 ++
          [Msg.table "Permissions (Base)"])) with hrep | ⟨d, msgs2, heq⟩
      · exact Or.inl hrep
      · exact Or.inr (Or.inr ⟨_, d, msgs2, heq⟩)
    | none =>
      cases hcm : a.compare_manifest with
      | none => exact Or.inr (Or.inl ⟨_, _, rfl⟩)
      | some q =>
        rcases compareStage_cases w a
          (applyOnly a.only
            ((extract_permissions (some t1)).map classify_permission))
          ((ms ++ (parse_manifest w data1).2 ++
            [Msg.table "Permissions (Base)"])) with hrep | ⟨d, msgs2, heq⟩
        · exact Or.inl hrep
        · exact Or.inr (Or.inr ⟨_, d, msgs2, heq⟩)

theorem analyze_cases (w : World) (a : Args) :
    (analyze w a).report = none ∨
    (∃ perms1 msgs1, analyze w a =
      finishRun w a { permissions := perms1, diff := none } msgs1) ∨
    (∃ perms1 d msgs2, analyze w a =
      policyAndFinish w a perms1 d msgs2) := by
  cases hap : a.apk with
  | some p => rw [analyze_apk hap]; exact analyzeWithData_cases ..
  | none =>
    cases hm : a.manifest with
    | none => left; rw [analyze_usage hap hm]
    | some p =>
      cases hr : w.readBytes p with
      | none => left; rw [analyze_manifest_uncaught hap hm hr]
      | some b => rw [analyze_manifest hap hm hr]; exact analyzeWithData_cases ..

/-! ## C6 — policy exit 3 with artifact-before-exit -/

/-- C6: when the fail-on-new-dangerous policy is active and the computed
diff's `newDangerous` is non-empty, the run terminates with exit code 3,
and if a JSON output destination is configured (and the write succeeds)
the JSON artifact carrying that very report is written before the
termination. -/
theorem C6_policy_exit3_artifact_before_exit (w : World) (a : Args)
    (r : Report) (d : DiffResult)
    (hf : a.fail_on_new_dangerous = true)
    (hr : (analyze w a).report = some r)
    (hd : r.diff = some d)
    (hne : d.newDangerous ≠ []) :
    (analyze w a).outcome = Outcome.exit 3 ∧
    (∀ p, a.output = some p → w.jsonWriteOk p = true →
      (analyze w a).writes = [(p, r)]) := by
  rcases analyze_cases w a with hnone | ⟨perms1, msgs1, heq⟩ |
    ⟨perms1, d', msgs2, heq⟩
  · rw [hnone] at hr; exact absurd hr (by simp)
  · rw [heq, finishRun_report] at hr
    obtain rfl : ({ permissions := perms1, diff := none } : Report) = r := by
      simpa using hr
    simp at hd
  · rw [heq, policyAndFinish_report] at hr
    obtain rfl : ({ permissions := perms1, diff := some d' } : Report) = r := by
      simpa using hr
    obtain rfl : d' = d := by simpa using hd
    rw [heq]
    exact ⟨policyAndFinish_outcome_hit hf hne,
      fun p ho hok => policyAndFinish_writes ho hok⟩

/-- World for the C6 witness: scenario 3 of the spec (base = INTERNET,
compare = INTERNET + CAMERA) with an output destination whose write
succeeds. -/
def C6world : World :=
  { fsExists := fun _ => false
    zipManifest := fun _ => none
    readBytes := fun p =>
      if p = "base.xml" then some "B1"
      else if p = "cmp.xml" then some "B2" else none
    axmlDecoder := none
    xmlParse := fun b =>
      if b = "B1" then
        some { children := [{ tag := "uses-permission",
                              androidName :=
                                some "android.permission.INTERNET" }] }
      else if b = "B2" then
        some { children := [{ tag := "uses-permission",
                              androidName :=
                                some "android.permission.INTERNET" },
                            { tag := "uses-permission",
                              androidName :=
                                some "android.permission.CAMERA" }] }
      else none
    jsonWriteOk := fun _ => true }

def C6args : Args :=
  { apk := none, manifest := some "base.xml", compare_apk := none,
    compare_manifest := some "cmp.xml", output := some "report.json",
    only := none, fail_on_new_dangerous := true, no_color := false }

def C6report : Report :=
  { permissions := [classify_permission "android.permission.INTERNET"],
    diff := some { added := ["android.permission.CAMERA"], removed := [],
                   newDangerous := ["android.permission.CAMERA"] } }

theorem C6_policy_exit3_witness :
    C6args.fail_on_new_dangerous = true ∧
    (analyze C6world C6args).report = some C6report ∧
    C6report.diff = some { added := ["android.permission.CAMERA"],
                           removed := [],
                           newDangerous := ["android.permission.CAMERA"] } ∧
    (["android.permission.CAMERA"] : List String) ≠ [] ∧
    ((analyze C6world C6args).outcome = Outcome.exit 3 ∧
     (∀ p, C6args.output = some p → C6world.jsonWriteOk p = true →
       (analyze C6world C6args).writes = [(p, C6report)])) :=
  ⟨rfl, by decide, rfl, by decide,
   C6_policy_exit3_artifact_before_exit C6world C6args C6report _
     rfl (by decide) rfl (by decide)⟩

/-! ## C7 — scenario with all permissions removed exits 0 -/

/-- World for C7: base manifest declares CAMERA only, comparison manifest
declares nothing. -/
def C7world : World :=
  { fsExists := fun _ => false
    zipManifest := fun _ => none
    readBytes := fun p =>
      if p = "base.xml" then some "B1"
      else if p = "cmp.xml" then some "B2" else none
    axmlDecoder := none
    xmlParse := fun b =>
      if b = "B1" then
        some { children := [{ tag := "uses-permission",
                              androidName :=
                                some "android.permission.CAMERA" }] }
      else if b = "B2" then some { children := [] }
      else none
    jsonWriteOk := fun _ => true }

def C7args : Args :=
  { apk := none, manifest := some "base.xml", compare_apk := none,
    compare_manifest := some "cmp.xml", output := none, only := none,
    fail_on_new_dangerous := true, no_color := false }

/-- C7: base = {CAMERA}, compare = {} yields `added = []`,
`removed = ["android.permission.CAMERA"]`, `newDangerous = []`, and the
run exits 0 even though the fail-on-new-dangerous flag is active. -/
theorem C7_all_removed_exit0 :
    C7args.fail_on_new_dangerous = true ∧
    (analyze C7world C7args).report =
      some { permissions := [classify_permission "android.permission.CAMERA"],
             diff := some { added := [],
                            removed := ["android.permission.CAMERA"],
                            newDangerous := [] } } ∧
    (analyze C7world C7args).outcome = Outcome.exit 0 := by
  refine ⟨rfl, by decide, by decide⟩

/-! ## C8 — JSON write failure never alters the exit status -/

theorem policyAndFinish_outcome_indep (w : World) (f : FilePath' → Bool)
    (a : Args) (perms1 : List PermissionRecord) (d : DiffResult)
    (m m' : List Msg) :
    (policyAndFinish { w with jsonWriteOk := f } a perms1 d m).outcome =
    (policyAndFinish w a perms1 d m').outcome := by
  by_cases h : a.fail_on_new_dangerous = true ∧ d.newDangerous ≠ []
  · rw [policyAndFinish_outcome_hit h.1 h.2,
        policyAndFinish_outcome_hit h.1 h.2]
  · have h' : a.fail_on_new_dangerous = false ∨ d.newDangerous = [] := by
      rcases Bool.eq_false_or_eq_true a.fail_on_new_dangerous with hf | hf
      · right; by_contra hne; exact h ⟨hf, hne⟩
      · exact Or.inl hf
    rw [policyAndFinish_outcome_miss h', policyAndFinish_outcome_miss h']

theorem compareStage_outcome_indep (w : World) (f : FilePath' → Bool)
    (a : Args) (perms1 : List PermissionRecord) (m m' : List Msg) :
    (compareStage { w with jsonWriteOk := f } a perms1 m).outcome =
    (compareStage w a perms1 m').outcome := by
  cases hlc : loadCompare w a with
  | none =>
    rw [compareStage_uncaught (w := { w with jsonWriteOk := f }) hlc,
        compareStage_uncaught hlc]
  | some pr =>
    rcases pr with ⟨data2, ms2⟩
    rw [compareStage_loaded (w := { w with jsonWriteOk := f }) hlc,
        compareStage_loaded hlc]
    exact policyAndFinish_outcome_indep ..

theorem analyzeWithData_outcome_indep (w : World) (f : FilePath' → Bool)
    (a : Args) (data1 : Option Bytes) (ms ms' : List Msg) :
    (analyzeWithData { w with jsonWriteOk := f } a data1 ms).outcome =
    (analyzeWithData w a data1 ms').outcome := by
  cases hp : (parse_manifest w data1).1 with
  | none =>
    rw [analyzeWithData_parse_fail (w := { w with jsonWriteOk := f }) hp,
        analyzeWithData_parse_fail hp]
  | some t1 =>
    rw [analyzeWithData_parse_ok (w := { w with jsonWriteOk := f }) hp,
        analyzeWithData_parse_ok hp]
    cases hca : a.compare_apk with
    | some q =>
      simp only
      exact compareStage_outcome_indep ..
    | none =>
      cases hcm : a.compare_manifest with
      | none =>
        simp only [hca, hcm]
        rw [finishRun_outcome, finishRun_outcome]
      | some q =>
        simp only [hca, hcm]
        exact compareStage_outcome_indep ..

/-- C8: the success or failure of the JSON artifact write never influences
how the run ends (first conjunct: the outcome is invariant under replacing
the write-success oracle), and when a run that built a report has a
configured output whose write fails, the failure is reported as a console
message. -/
theorem C8_write_failure_message_only (w : World) (a : Args) :
    (∀ f : FilePath' → Bool,
      (analyze { w with jsonWriteOk := f } a).outcome =
        (analyze w a).outcome) ∧
    (∀ r p, (analyze w a).report = some r → a.output = some p →
      w.jsonWriteOk p = false →
      Msg.jsonWriteError p ∈ (analyze w a).msgs) := by
  constructor
  · intro f
    cases hap : a.apk with
    | some p =>
      rw [analyze_apk (w := { w with jsonWriteOk := f }) hap,
          analyze_apk hap]
      exact analyzeWithData_outcome_indep ..
    | none =>
      cases hm : a.manifest with
      | none =>
        rw [analyze_usage (w := { w with jsonWriteOk := f }) hap hm,
            analyze_usage hap hm]
      | some p =>
        cases hr : w.readBytes p with
        | none =>
          rw [analyze_manifest_uncaught
                (w := { w with jsonWriteOk := f }) hap hm hr,
              analyze_manifest_uncaught hap hm hr]
        | some b =>
          rw [analyze_manifest (w := { w with jsonWriteOk := f }) hap hm hr,
              analyze_manifest hap hm hr]
          exact analyzeWithData_outcome_indep ..
  · intro r p hr ho hfail
    rcases analyze_cases w a with hnone | ⟨perms1, msgs1, heq⟩ |
      ⟨perms1, d, msgs2, heq⟩
    · rw [hnone] at hr; exact absurd hr (by simp)
    · rw [heq]; exact finishRun_writefail_msg _ _ ho hfail
    · rw [heq]; exact policyAndFinish_writefail_msg ho hfail

/-- World for the C8 witness: base manifest parses, JSON write always
fails. -/
def C8world : World :=
  { fsExists := fun _ => false
    zipManifest := fun _ => none
    readBytes := fun p => if p = "base.xml" then some "B1" else none
    axmlDecoder := none
    xmlParse := fun b =>
      if b = "B1" then
        some { children := [{ tag := "uses-permission",
                              androidName :=
                                some "android.permission.INTERNET" }] }
      else none
    jsonWriteOk := fun _ => false }

def C8args : Args :=
  { apk := none, manifest := some "base.xml", compare_apk := none,
    compare_manifest := none, output := some "out.json", only := none,
    fail_on_new_dangerous := false, no_color := false }

theorem C8_write_failure_message_only_witness :
    ((analyze { C8world with jsonWriteOk := fun _ => true } C8args).outcome =
      (analyze C8world C8args).outcome) ∧
    ((analyze C8world C8args).report =
      some { permissions := [classify_permission "android.permission.INTERNET"],
             diff := none } ∧
     C8world.jsonWriteOk "out.json" = false ∧
     (analyze C8world C8args).outcome = Outcome.exit 0 ∧
     Msg.jsonWriteError "out.json" ∈ (analyze C8world C8args).msgs) :=
  ⟨(C8_write_failure_message_only C8world C8args).1 (fun _ => true),
   by decide, rfl, by decide,
   (C8_write_failure_message_only C8world C8args).2
     { permissions := [classify_permission "android.permission.INTERNET"],
       diff := none }
     "out.json" (by decide) rfl rfl⟩

/-! ## C2 — failed comparison load does not propagate; the diff is taken
against an empty comparison set -/

theorem policyAndFinish_outcome_not_uncaught (w : World) (a : Args)
    (perms1 : List PermissionRecord) (d : DiffResult) (m : List Msg) :
    (policyAndFinish w a perms1 d m).outcome ≠ Outcome.uncaught := by
  by_cases h : a.fail_on_new_dangerous = true ∧ d.newDangerous ≠ []
  · rw [policyAndFinish_outcome_hit h.1 h.2]; simp
  · have h' : a.fail_on_new_dangerous = false ∨ d.newDangerous = [] := by
      rcases Bool.eq_false_or_eq_true a.fail_on_new_dangerous with hf | hf
      · right; by_contra hne; exact h ⟨hf, hne⟩
      · exact Or.inl hf
    rw [policyAndFinish_outcome_miss h']; simp

/-- World and arguments for the C2 counterexample: the base manifest
parses and declares INTERNET; the comparison APK path does not exist. -/
def C2world : World :=
  { fsExists := fun _ => false
    zipManifest := fun _ => none
    readBytes := fun p => if p = "base.xml" then some "B1" else none
    axmlDecoder := none
    xmlParse := fun b =>
      if b = "B1" then
        some { children := [{ tag := "uses-permission",
                              androidName :=
                                some "android.permission.INTERNET" }] }
      else none
    jsonWriteOk := fun _ => true }

def C2args : Args :=
  { apk := none, manifest := some "base.xml",
    compare_apk := some "nope.apk", compare_manifest := none,
    output := none, only := none, fail_on_new_dangerous := false,
    no_color := false }

/-- C2 counterexample: the comparison APK does not exist, so its load
fails; yet the run does not propagate the failure — it completes with exit
code 0 and a diff computed against an empty comparison set, reporting the
base permission as removed. -/
theorem C2_counterexample :
    C2world.fsExists "nope.apk" = false ∧
    (load_manifest_from_apk C2world "nope.apk").1 = none ∧
    (analyze C2world C2args).outcome = Outcome.exit 0 ∧
    (analyze C2world C2args).report =
      some { permissions := [classify_permission "android.permission.INTERNET"],
             diff := some { added := [],
                            removed := ["android.permission.INTERNET"],
                            newDangerous := [] } } :=
  ⟨rfl, rfl, by decide, by decide⟩

/-- C2 (amended): when the comparison input is an APK whose load or parse
fails, the orchestrator does **not** propagate the failure: it computes the
diff against an empty comparison set and completes normally. Only a
comparison given as a manifest file whose byte read raises propagates as an
uncaught exception. -/
theorem C2_comparison_failure_empty_diff (w : World) (a : Args)
    (p : FilePath') (b : Bytes) (t1 : ManifestTree)
    (hap : a.apk = none) (hm : a.manifest = some p)
    (hr : w.readBytes p = some b)
    (hp1 : (parse_manifest w (some b)).1 = some t1) :
    (∀ q, a.compare_apk = some q →
      (parse_manifest w (load_manifest_from_apk w q).1).1 = none →
      (analyze w a).report =
        some { permissions := applyOnly a.only
                 ((extract_permissions (some t1)).map classify_permission),
               diff := some (diff_permissions
                 (applyOnly a.only
                   ((extract_permissions (some t1)).map classify_permission))
                 []) } ∧
      (analyze w a).outcome ≠ Outcome.uncaught) ∧
    (a.compare_apk = none → ∀ q, a.compare_manifest = some q →
      w.readBytes q = none →
      (analyze w a).outcome = Outcome.uncaught) := by
  constructor
  · intro q hq hpar
    rw [analyze_manifest hap hm hr, analyzeWithData_parse_ok hp1]
    simp only [hq]
    have hlc : loadCompare w a =
        some ((load_manifest_from_apk w q).1,
              (load_manifest_from_apk w q).2) := by
      simp only [loadCompare, hq]
    rw [compareStage_loaded hlc]
    rw [hpar, extract_permissions_none, List.map_nil]
    constructor
    · rw [policyAndFinish_report]
    · exact policyAndFinish_outcome_not_uncaught _ _ _ _ _
  · intro hca q hcm hrq
    rw [analyze_manifest hap hm hr, analyzeWithData_parse_ok hp1]
    simp only [hca, hcm]
    have hlc : loadCompare w a = none := by
      simp only [loadCompare, hca, hcm, hrq]
    rw [compareStage_uncaught hlc]

def C2args2 : Args :=
  { apk := none, manifest := some "base.xml", compare_apk := none,
    compare_manifest := some "missing.xml", output := none, only := none,
    fail_on_new_dangerous := false, no_color := false }

theorem C2_comparison_failure_empty_diff_witness :
    ((analyze C2world C2args).report =
      some { permissions := [classify_permission "android.permission.INTERNET"],
             diff := some (diff_permissions
               [classify_permission "android.permission.INTERNET"] []) } ∧
     (analyze C2world C2args).outcome ≠ Outcome.uncaught) ∧
    (analyze C2world C2args2).outcome = Outcome.uncaught :=
  ⟨(C2_comparison_failure_empty_diff C2world C2args "base.xml" "B1"
      { children := [{ tag := "uses-permission",
                       androidName := some "android.permission.INTERNET" }] }
      rfl rfl rfl rfl).1 "nope.apk" rfl rfl,
   (C2_comparison_failure_empty_diff C2world C2args2 "base.xml" "B1"
      { children := [{ tag := "uses-permission",
                       androidName := some "android.permission.INTERNET" }] }
      rfl rfl rfl rfl).2 rfl "missing.xml" rfl rfl⟩

/-! ## C9 — the `only` filter is applied to the base set but not to the
comparison set before diffing -/

theorem mem_added_of {old new : List PermissionRecord} {n : String}
    (hnew : n ∈ dictKeys new) (hold : n ∉ dictKeys old) :
    n ∈ (diff_permissions old new).added := by
  simp only [diff_permissions]
  rw [List.mem_filter]
  exact ⟨hnew, by simpa using hold⟩

theorem mem_newDangerous_of {old new : List PermissionRecord} {n : String}
    {r : PermissionRecord}
    (ha : n ∈ (diff_permissions old new).added)
    (hget : dictGet new n = some r) (hcat : r.category = "dangerous") :
    n ∈ (diff_permissions old new).newDangerous := by
  simp only [diff_permissions] at ha ⊢
  rw [List.mem_filter]
  refine ⟨ha, ?_⟩
  show (match dictGet new n with
        | some r => r.category == "dangerous"
        | none => false) = true
  rw [hget]
  simp [hcat]

/-- C9: with a category allow-list filter, the diff compares the filtered
base set against the **unfiltered** comparison set. Hence a permission
declared in both manifests whose category the filter excludes reappears in
`added`; if its category is dangerous it is in `newDangerous` and, under
the fail-on-new-dangerous flag, the run exits 3. -/
theorem C9_filter_excluded_reappears_in_added (w : World) (a : Args)
    (bp cp : FilePath') (b1 b2 : Bytes) (t1 t2 : ManifestTree)
    (cats : List String) (n : String)
    (hap : a.apk = none) (hm : a.manifest = some bp)
    (hr1 : w.readBytes bp = some b1)
    (hp1 : (parse_manifest w (some b1)).1 = some t1)
    (hcap : a.compare_apk = none) (hcm : a.compare_manifest = some cp)
    (hr2 : w.readBytes cp = some b2)
    (hp2 : (parse_manifest w (some b2)).1 = some t2)
    (honly : a.only = some cats) (hcats : cats ≠ [])
    (hn1 : n ∈ extract_permissions (some t1))
    (hn2 : n ∈ extract_permissions (some t2))
    (hexcl : (classify_permission n).category ∉ cats) :
    n ∈ (diff_permissions
          (applyOnly (some cats)
            ((extract_permissions (some t1)).map classify_permission))
          ((extract_permissions (some t2)).map classify_permission)).added ∧
    (analyze w a).report =
      some { permissions := applyOnly (some cats)
               ((extract_permissions (some t1)).map classify_permission),
             diff := some (diff_permissions
               (applyOnly (some cats)
                 ((extract_permissions (some t1)).map classify_permission))
               ((extract_permissions (some t2)).map
                 classify_permission)) } ∧
    ((classify_permission n).category = "dangerous" →
      n ∈ (diff_permissions
            (applyOnly (some cats)
              ((extract_permissions (some t1)).map classify_permission))
            ((extract_permissions (some t2)).map
              classify_permission)).newDangerous ∧
      (a.fail_on_new_dangerous = true →
        (analyze w a).outcome = Outcome.exit 3)) := by
  have hmem_new : n ∈ dictKeys
      ((extract_permissions (some t2)).map classify_permission) :=
    mem_dictKeys.mpr ⟨classify_permission n,
      List.mem_map_of_mem _ hn2, classify_permission_name n⟩
  have hnotin : n ∉ dictKeys (applyOnly (some cats)
      ((extract_permissions (some t1)).map classify_permission)) := by
    intro hmem
    rcases mem_dictKeys.mp hmem with ⟨r, hrmem, hrname⟩
    rcases cats with _ | ⟨c, cs⟩
    · exact hcats rfl
    · simp only [applyOnly] at hrmem
      rcases List.mem_filter.mp hrmem with ⟨hrp, hrc⟩
      have hre : r = classify_permission n := mem_map_classify_eq hrp hrname
      exact hexcl (List.elem_iff.mp (hre ▸ hrc))
  have hadd := mem_added_of hmem_new hnotin
  rcases dictGet_eq_some_of_mem (l :=
      (extract_permissions (some t2)).map classify_permission)
      ⟨classify_permission n, List.mem_map_of_mem _ hn2,
       classify_permission_name n⟩ with ⟨r, hget, hrmem, hrname⟩
  have hre : r = classify_permission n := mem_map_classify_eq hrmem hrname
  rw [analyze_manifest hap hm hr1, analyzeWithData_parse_ok hp1]
  simp only [hcap, hcm, honly]
  have hlc : loadCompare w a = some (some b2, []) := by
    simp only [loadCompare, hcap, hcm, hr2]
  rw [compareStage_loaded hlc, hp2]
  refine ⟨hadd, policyAndFinish_report .., fun hdang => ?_⟩
  have hnd := mem_newDangerous_of hadd hget (by rw [hre, hdang])
  exact ⟨hnd, fun hf =>
    policyAndFinish_outcome_hit hf (List.ne_nil_of_mem hnd)⟩

/-- World for the C9 witness: base declares CAMERA and INTERNET, the
comparison declares CAMERA only; the filter keeps only `normal`. -/
def C9world : World :=
  { fsExists := fun _ => false
    zipManifest := fun _ => none
    readBytes := fun p =>
      if p = "base.xml" then some "B1"
      else if p = "cmp.xml" then some "B2" else none
    axmlDecoder := none
    xmlParse := fun b =>
      if b = "B1" then
        some { children := [{ tag := "uses-permission",
                              androidName :=
                                some "android.permission.CAMERA" },
                            { tag := "uses-permission",
                              androidName :=
                                some "android.permission.INTERNET" }] }
      else if b = "B2" then
        some { children := [{ tag := "uses-permission",
                              androidName :=
                                some "android.permission.CAMERA" }] }
      else none
    jsonWriteOk := fun _ => true }

def C9args : Args :=
  { apk := none, manifest := some "base.xml", compare_apk := none,
    compare_manifest := some "cmp.xml", output := none,
    only := some ["normal"], fail_on_new_dangerous := true,
    no_color := false }

def C9base : ManifestTree :=
  { children := [{ tag := "uses-permission",
                   androidName := some "android.permission.CAMERA" },
                 { tag := "uses-permission",
                   androidName := some "android.permission.INTERNET" }] }

def C9cmp : ManifestTree :=
  { children := [{ tag := "uses-permission",
                   androidName := some "android.permission.CAMERA" }] }

theorem C9_filter_excluded_reappears_witness :
    "android.permission.CAMERA" ∈ (diff_permissions
        (applyOnly (some ["normal"])
          ((extract_permissions (some C9base)).map classify_permission))
        ((extract_permissions (some C9cmp)).map
          classify_permission)).added ∧
    (analyze C9world C9args).report =
      some { permissions := applyOnly (some ["normal"])
               ((extract_permissions (some C9base)).map classify_permission),
             diff := some (diff_permissions
               (applyOnly (some ["normal"])
                 ((extract_permissions (some C9base)).map
                   classify_permission))
               ((extract_permissions (some C9cmp)).map
                 classify_permission)) } ∧
    ((classify_permission "android.permission.CAMERA").category =
        "dangerous" →
      "android.permission.CAMERA" ∈ (diff_permissions
            (applyOnly (some ["normal"])
              ((extract_permissions (some C9base)).map classify_permission))
            ((extract_permissions (some C9cmp)).map
              classify_permission)).newDangerous ∧
      (C9args.fail_on_new_dangerous = true →
        (analyze C9world C9args).outcome = Outcome.exit 3)) :=
  C9_filter_excluded_reappears_in_added C9world C9args "base.xml" "cmp.xml"
    "B1" "B2" C9base C9cmp ["normal"] "android.permission.CAMERA"
    rfl rfl rfl rfl rfl rfl rfl rfl rfl (by decide) (by decide) (by decide)
    (by decide)

/-! ## C10 — existence checks and clean exit-1 only for archive inputs -/

theorem parse_manifest_none_fst (w : World) :
    (parse_manifest w none).1 = none := by
  unfold parse_manifest; cases w.axmlDecoder <;> rfl

theorem parse_manifest_none_snd (w : World) :
    (parse_manifest w none).2 = [Msg.parseError] := by
  unfold parse_manifest; cases w.axmlDecoder <;> rfl

/-- C10: a missing archive path is caught (message + exit 1), but a missing
manifest file path — base or comparison — makes the raw byte read raise an
uncaught exception, with no not-found message and no clean exit-1
handling. -/
theorem C10_manifest_path_read_uncaught (w : World) (a : Args)
    (p : FilePath') :
    ((a.apk = none ∧ a.manifest = some p ∧ w.readBytes p = none) →
      (analyze w a).outcome = Outcome.uncaught ∧ (analyze w a).msgs = []) ∧
    ((a.apk = some p ∧ w.fsExists p = false) →
      (analyze w a).outcome = Outcome.exit 1 ∧
      Msg.apkNotFound p ∈ (analyze w a).msgs) ∧
    (∀ q b t1,
      (a.apk = none ∧ a.manifest = some p ∧ w.readBytes p = some b ∧
        (parse_manifest w (some b)).1 = some t1 ∧
        a.compare_apk = none ∧ a.compare_manifest = some q ∧
        w.readBytes q = none) →
      (analyze w a).outcome = Outcome.uncaught) := by
  refine ⟨?_, ?_, ?_⟩
  · rintro ⟨hap, hm, hr⟩
    rw [analyze_manifest_uncaught hap hm hr]
    exact ⟨rfl, rfl⟩
  · rintro ⟨hap, hfs⟩
    rw [analyze_apk hap]
    have hload : load_manifest_from_apk w p = (none, [Msg.apkNotFound p]) := by
      simp [load_manifest_from_apk, hfs]
    rw [hload]
    rw [analyzeWithData_parse_fail (parse_manifest_none_fst w)]
    exact ⟨rfl, by simp⟩
  · rintro q b t1 ⟨hap, hm, hr, hp1, hca, hcm, hrq⟩
    rw [analyze_manifest hap hm hr, analyzeWithData_parse_ok hp1]
    simp only [hca, hcm]
    have hlc : loadCompare w a = none := by
      simp only [loadCompare, hca, hcm, hrq]
    rw [compareStage_uncaught hlc]

def C10world : World :=
  { fsExists := fun _ => false
    zipManifest := fun _ => none
    readBytes := fun p => if p = "base.xml" then some "B1" else none
    axmlDecoder := none
    xmlParse := fun b => if b = "B1" then some { children := [] } else none
    jsonWriteOk := fun _ => true }

def C10argsManifest : Args :=
  { apk := none, manifest := some "missing.xml", compare_apk := none,
    compare_manifest := none, output := none, only := none,
    fail_on_new_dangerous := false, no_color := false }

def C10argsApk : Args :=
  { apk := some "app.apk", manifest := none, compare_apk := none,
    compare_manifest := none, output := none, only := none,
    fail_on_new_dangerous := false, no_color := false }

def C10argsCompare : Args :=
  { apk := none, manifest := some "base.xml", compare_apk := none,
    compare_manifest := some "missing.xml", output := none, only := none,
    fail_on_new_dangerous := false, no_color := false }

theorem C10_manifest_path_read_uncaught_witness :
    ((analyze C10world C10argsManifest).outcome = Outcome.uncaught ∧
     (analyze C10world C10argsManifest).msgs = []) ∧
    ((analyze C10world C10argsApk).outcome = Outcome.exit 1 ∧
     Msg.apkNotFound "app.apk" ∈ (analyze C10world C10argsApk).msgs) ∧
    (analyze C10world C10argsCompare).outcome = Outcome.uncaught :=
  ⟨(C10_manifest_path_read_uncaught C10world C10argsManifest
      "missing.xml").1 ⟨rfl, rfl, rfl⟩,
   (C10_manifest_path_read_uncaught C10world C10argsApk "app.apk").2.1
      ⟨rfl, rfl⟩,
   (C10_manifest_path_read_uncaught C10world C10argsCompare "base.xml").2.2
      "missing.xml" "B1" { children := [] }
      ⟨rfl, rfl, rfl, rfl, rfl, rfl, rfl⟩⟩

end PermInspector
